import Mathlib

/-!
Verification development for the track-figure generation core
(`core/figure_generator.py`): shallow embedding of the track data model,
the reversal-table qualification logic, per-step speed derivation and
normalization, trajectory segment coloring, the close-up renderer's
index handling, the per-track processing unit, and the orchestrator's
aggregation and summary writing.

Numeric series are embedded as lists of rationals (exact arithmetic in
place of IEEE floats); the square root in the speed derivation is the
real square root, so speed-valued quantities live in the reals.
-/

namespace FigureGen

/-- A detected reversal event: integer offsets into the time-series index
space, as read from the data store (`start_idx`, `end_idx` attributes,
coerced with Python `int(...)`, hence `Int`). -/
structure ReversalWindow where
  start_idx : ℤ
  end_idx : ℤ
  deriving DecidableEq, Repr, Inhabited

/-- One loaded track record, mirroring the dictionary built by
`load_track_data`. -/
structure TrackData where
  track_num : ℕ
  SpeedRunVel : List ℚ
  times : List ℚ
  xpos : List ℚ
  ypos : List ℚ
  eti : List ℚ
  reversals : List ReversalWindow
  deriving DecidableEq, Repr, Inhabited

/-- One row of the reversal table built at the top of `plot_dot_product`
(the dict with keys start, end, duration, start_idx, end_idx). -/
structure TableRow where
  rstart : ℚ
  rend : ℚ
  duration : ℚ
  start_idx : ℕ
  end_idx : ℕ
  deriving DecidableEq, Repr

/-- The per-window body of the table-building loop in `plot_dot_product`
(lines 83-94): bounds check `0 <= start_idx < len(times)` and
`0 <= end_idx <= len(times)`, slice `times[start_idx:end_idx]`, require a
non-empty slice, compute `duration = rev_times[-1] - rev_times[0]`, and
keep the row when `duration >= 3.0`. -/
def rowOf (times : List ℚ) (rev : ReversalWindow) : Option TableRow :=
  if 0 ≤ rev.start_idx ∧ rev.start_idx < (times.length : ℤ) ∧
      0 ≤ rev.end_idx ∧ rev.end_idx ≤ (times.length : ℤ) then
    let s := rev.start_idx.toNat
    let e := rev.end_idx.toNat
    let rev_times := (times.drop s).take (e - s)
    if 0 < rev_times.length then
      let tstart := rev_times.headD 0
      let tend := rev_times.getLastD 0
      let duration := tend - tstart
      if 3 ≤ duration then some ⟨tstart, tend, duration, s, e⟩ else none
    else none
  else none

/-- The event table of the time-series figure: one row per reversal window
that passes the bounds, non-degeneracy and 3-second checks, in source
order (`reversal_table_data` in `plot_dot_product`). -/
def reversal_table_data (times : List ℚ) (revs : List ReversalWindow) :
    List TableRow :=
  revs.filterMap (rowOf times)

/-- Number of qualified reversals of a track: rows of the event table. -/
def qualified_count (times : List ℚ) (revs : List ReversalWindow) : ℕ :=
  (reversal_table_data times revs).length

/-- The per-step speed of segment `i` in `plot_trajectory` (lines 153-156):
`dx = xpos[i+1]-xpos[i]`, `dy = ypos[i+1]-ypos[i]`,
`dt = eti[i+1]-eti[i]` if `i+1 < len(eti)` else `1`, and the speed is
`sqrt(dx**2+dy**2)/dt*10` if `dt > 0` else `0`. -/
noncomputable def stepSpeed (xpos ypos eti : List ℚ) (i : ℕ) : ℝ :=
  let dx : ℚ := xpos.getD (i + 1) 0 - xpos.getD i 0
  let dy : ℚ := ypos.getD (i + 1) 0 - ypos.getD i 0
  let dt : ℚ := if i + 1 < eti.length then eti.getD (i + 1) 0 - eti.getD i 0
    else 1
  if 0 < dt then Real.sqrt ((dx ^ 2 + dy ^ 2 : ℚ) : ℝ) / (dt : ℝ) * 10 else 0

/-- The derived speed sequence of a track (`speeds` in `plot_trajectory`,
lines 152-158): one value per position index `i in range(len(xpos)-1)`. -/
noncomputable def speeds (xpos ypos eti : List ℚ) : List ℝ :=
  (List.range (xpos.length - 1)).map (stepSpeed xpos ypos eti)

/-- `numpy` array minimum with a default for the empty array. -/
noncomputable def listMinD : List ℝ → ℝ → ℝ
  | [], d => d
  | a :: rest, _ => rest.foldl min a

/-- `numpy` array maximum with a default for the empty array. -/
noncomputable def listMaxD : List ℝ → ℝ → ℝ
  | [], d => d
  | a :: rest, _ => rest.foldl max a

/-- `speed_min = speeds[speeds > 0].min() if np.any(speeds > 0) else 0`
(line 159 of `plot_trajectory`). -/
noncomputable def speed_min (s : List ℝ) : ℝ :=
  listMinD (s.filter fun v => decide (0 < v)) 0

/-- `speed_max = speeds.max() if len(speeds) > 0 else 1` (line 160). -/
noncomputable def speed_max (s : List ℝ) : ℝ :=
  listMaxD s 1

/-- Per-segment speed normalization
`(speeds[i] - speed_min) / (speed_max - speed_min + 1e-10)` (line 168). -/
noncomputable def speed_norm (s : List ℝ) (i : ℕ) : ℝ :=
  (s.getD i 0 - speed_min s) / (speed_max s - speed_min s + 1e-10)

/-- Color assigned to a drawn trajectory segment: either the fixed
reversal color (`uv_color`, purple) or a point on the 6-stop speed
gradient colormap at the given normalized speed. -/
inductive SegColor
  | reversal
  | gradient (v : ℝ)

/-- The containment test of the segment-coloring loop of `plot_trajectory`
(lines 171-174): some reversal window satisfies
`int(rev.get('start_idx', 0)) <= i < int(rev.get('end_idx', len(xpos)))`. -/
def inReversal (revs : List ReversalWindow) (i : ℕ) : Bool :=
  revs.any fun rev => decide (rev.start_idx ≤ (i : ℤ) ∧ (i : ℤ) < rev.end_idx)

/-- The trajectory segments actually drawn by `plot_trajectory`
(lines 166-175): for `i in range(len(xpos)-1)` a segment is drawn only if
`i < len(speeds) and speeds[i] > 0`; the drawn color is the fixed reversal
color when some reversal window contains `i`, else the gradient color at
the segment's normalized speed. -/
noncomputable def drawnSegments (xpos ypos eti : List ℚ)
    (revs : List ReversalWindow) : List (ℕ × SegColor) :=
  (List.range (xpos.length - 1)).filterMap fun i =>
    if i < (speeds xpos ypos eti).length ∧
        0 < (speeds xpos ypos eti).getD i 0 then
      some (i, if inReversal revs i = true then SegColor.reversal
        else SegColor.gradient (speed_norm (speeds xpos ypos eti) i))
    else none

/-- Abstract environment of one per-track unit of work: whether the track
directory exists, whether `track_data.h5` exists inside it, the result of
parsing the file once opened (`.error msg` models an exception raised
while reading), the result of the mkdir/figure-rendering side effects
(`.error msg` models an exception raised while rendering), and whether
collecting the unit's result at the pool level raises. -/
structure TrackEnv where
  dirExists : Bool
  h5Exists : Bool
  readResult : Except String TrackData
  renderResult : Except String Unit
  poolFail : Bool

/-- `load_track_data` (lines 20-57): raises `FileNotFoundError` when
`track_data.h5` is absent from the track directory, else parses it (the
parse itself may raise, modeled by `readResult`). -/
def load_track_data (env : TrackEnv) : Except String TrackData :=
  if env.h5Exists then env.readResult
  else Except.error "No track_data.h5 found"

/-- Outcome status strings of `process_single_track` /
`generate_all_figures`. -/
inductive Status
  | success
  | not_found
  | error
  | exception
  deriving DecidableEq, Repr

/-- The per-track outcome record returned by `process_single_track`
(`track_num`, `status`, `reversals`, optional `error`). -/
structure Outcome where
  track_num : ℕ
  status : Status
  reversals : ℕ
  error_detail : Option String
  deriving DecidableEq, Repr

/-- `process_single_track` (lines 220-247): missing directory short-circuits
to `not_found` before the loader runs; otherwise the unit loads, renders
all figures, and returns `success` with `len(data['reversals'])`, while
any exception is caught and folded into an `error` outcome carrying the
exception's message. The embedding is a total function: the unit never
propagates an exception. -/
def process_single_track (track_num : ℕ) (env : TrackEnv) : Outcome :=
  if env.dirExists = false then ⟨track_num, Status.not_found, 0, none⟩
  else
    match load_track_data env with
    | Except.error msg => ⟨track_num, Status.error, 0, some msg⟩
    | Except.ok d =>
      match env.renderResult with
      | Except.error msg => ⟨track_num, Status.error, 0, some msg⟩
      | Except.ok _ => ⟨track_num, Status.success, d.reversals.length, none⟩

/-- Python `int(...)` truncation toward zero of a rational. -/
def pyTrunc (q : ℚ) : ℤ :=
  if q < 0 then ⌈q⌉ else ⌊q⌋

/-- What a written close-up image depends on: which reversal record was
rendered (positional index) and the padded, clipped view window
`view_start`/`view_end` over the time series. -/
structure CloseupArtifact where
  revIndex : ℕ
  view_start : ℤ
  view_end : ℤ
  deriving DecidableEq, Repr

/-- The close-up artifact rendered for reversal `j` of a track
(`plot_reversal_closeup` lines 199-216): `padding = int(0.1 *
(end_idx - start_idx))`, `view_start = max(0, start_idx - padding)`,
`view_end = min(len(times), end_idx + padding)`. The float constant
`0.1` is idealized as the exact rational `1/10`. -/
def closeupArtifactAt (d : TrackData) (j : ℕ) : CloseupArtifact :=
  let rev := d.reversals.getD j default
  let padding := pyTrunc ((1 / 10 : ℚ) * ((rev.end_idx : ℚ) - (rev.start_idx : ℚ)))
  ⟨j, max 0 (rev.start_idx - padding),
    min (d.times.length : ℤ) (rev.end_idx + padding)⟩

/-- `plot_reversal_closeup` (lines 191-217): `if len(reversals) <=
reversal_idx: return` is the silent no-op branch (`.ok none`); otherwise
`reversals[reversal_idx]` follows Python list indexing — a negative index
wraps by `+ len(reversals)`, and an index still out of range raises
`IndexError` (`.error`). A successful call writes one close-up artifact. -/
def plot_reversal_closeup (d : TrackData) (reversal_idx : ℤ) :
    Except String (Option CloseupArtifact) :=
  if (d.reversals.length : ℤ) ≤ reversal_idx then Except.ok none
  else
    let j : ℤ := if reversal_idx < 0 then reversal_idx + d.reversals.length
      else reversal_idx
    if 0 ≤ j ∧ j < (d.reversals.length : ℤ) then
      Except.ok (some (closeupArtifactAt d j.toNat))
    else Except.error "list index out of range"

/-- The run-level summary artifact written to `summary.json`
(`{'tracks': results, 'total_reversals': total_revs}`). -/
structure Summary where
  tracks : List Outcome
  total_reversals : ℕ
  deriving DecidableEq, Repr

/-- Observable result of one orchestrator run: the collected outcome
sequence and the sequence of writes to the summary artifact path. -/
structure RunResult where
  outcomes : List Outcome
  summaryWrites : List Summary
  deriving DecidableEq, Repr

/-- Collection of one unit's result by the orchestrator (lines 286-296):
`future.result()` raising at the pool level yields an `exception` outcome
with `reversals = 0`; otherwise the unit's own outcome is appended. -/
def collectOutcome (p : ℕ × TrackEnv) : Outcome :=
  if p.2.poolFail then ⟨p.1, Status.exception, 0, none⟩
  else process_single_track p.1 p.2

/-- `total_revs = sum(r['reversals'] for r in results)` (line 300). -/
def total_reversals (rs : List Outcome) : ℕ :=
  (rs.map Outcome.reversals).sum

/-- `success = sum(1 for r in results if r['status'] == 'success')`
(line 299). -/
def success_count (rs : List Outcome) : ℕ :=
  (rs.filter fun r => decide (r.status = Status.success)).length

/-- `generate_all_figures` (lines 250-305) after track-set resolution:
`tracks` is the resolved (explicit or auto-discovered) list of track
numbers with their per-track environments, and `order` is the completion
order of the worker pool (`as_completed`), a permutation of the submission
indices. An empty track set returns early ("No tracks to process.")
WITHOUT writing the summary; otherwise outcomes are collected in
completion order and the summary artifact is written exactly once at the
end. -/
def generate_all_figures (tracks : List (ℕ × TrackEnv)) (order : List ℕ) :
    RunResult :=
  if tracks.isEmpty then ⟨[], []⟩
  else
    let results := order.filterMap fun i => (tracks.get? i).map collectOutcome
    ⟨results, [⟨results, total_reversals results⟩]⟩

/-- The empty track record (used as a concrete input below). -/
def emptyTrack : TrackData :=
  ⟨0, [], [], [], [], [], []⟩

/-- A track record with three time samples and one sub-threshold reversal
window `[0, 2)` (elapsed span 1 s). -/
def oneRevTrack : TrackData :=
  ⟨1, [0, 1, 2], [0, 1, 2], [], [], [], [⟨0, 2⟩]⟩

/-- Environment of a track whose directory is missing. -/
def envDirMissing : TrackEnv :=
  ⟨false, true, Except.ok emptyTrack, Except.ok (), false⟩

/-- Environment of a track whose directory exists but whose
`track_data.h5` is absent. -/
def envH5Missing : TrackEnv :=
  ⟨true, false, Except.ok emptyTrack, Except.ok (), false⟩

/-- Environment of a track that loads and renders successfully, carrying
`oneRevTrack`. -/
def envOk : TrackEnv :=
  ⟨true, true, Except.ok oneRevTrack, Except.ok (), false⟩

/-- Claim C1: for a reversal window whose bounds satisfy the data-model
invariant `0 ≤ start_idx ≤ end_idx ≤ N` (`N` the length of `elapsed_time`),
the window contributes a row to the time-series figure's event table iff
`elapsed_time[end_idx-1] - elapsed_time[start_idx] ≥ 3.0` seconds (the
threshold is exact), and a degenerate window with `start_idx = end_idx`
never contributes a row. -/
theorem reversal_table_threshold (times : List ℚ) (rev : ReversalWindow)
    (h0 : 0 ≤ rev.start_idx) (hN : rev.end_idx ≤ (times.length : ℤ)) :
    (rev.start_idx < rev.end_idx →
      ((rowOf times rev).isSome = true ↔
        3 ≤ times.getD (rev.end_idx - 1).toNat 0 -
          times.getD rev.start_idx.toNat 0)) ∧
    (rev.start_idx = rev.end_idx → rowOf times rev = none) := by
  constructor
  · intro hlt
    have hcond : 0 ≤ rev.start_idx ∧ rev.start_idx < (times.length : ℤ) ∧
        0 ≤ rev.end_idx ∧ rev.end_idx ≤ (times.length : ℤ) :=
      ⟨h0, by omega, by omega, hN⟩
    have hlen : ((times.drop rev.start_idx.toNat).take
        (rev.end_idx.toNat - rev.start_idx.toNat)).length
        = rev.end_idx.toNat - rev.start_idx.toNat := by
      rw [List.length_take, List.length_drop]
      omega
    have hslice : ∀ j, j < rev.end_idx.toNat - rev.start_idx.toNat →
        ((times.drop rev.start_idx.toNat).take
          (rev.end_idx.toNat - rev.start_idx.toNat))[j]? =
        times[rev.start_idx.toNat + j]? := by
      intro j hj
      rw [List.getElem?_take_of_lt hj, List.getElem?_drop]
    have hhead : ((times.drop rev.start_idx.toNat).take
        (rev.end_idx.toNat - rev.start_idx.toNat)).headD 0
        = times.getD rev.start_idx.toNat 0 := by
      rw [List.headD_eq_head?, List.head?_eq_getElem?,
        hslice 0 (by omega), Nat.add_zero, List.getD_eq_getElem?_getD]
    have hlast : ((times.drop rev.start_idx.toNat).take
        (rev.end_idx.toNat - rev.start_idx.toNat)).getLastD 0
        = times.getD (rev.end_idx.toNat - 1) 0 := by
      rw [List.getLastD_eq_getLast?, List.getLast?_eq_getElem?, hlen,
        hslice (rev.end_idx.toNat - rev.start_idx.toNat - 1) (by omega),
        show rev.start_idx.toNat +
          (rev.end_idx.toNat - rev.start_idx.toNat - 1)
          = rev.end_idx.toNat - 1 by omega,
        List.getD_eq_getElem?_getD]
    have htn : (rev.end_idx - 1).toNat = rev.end_idx.toNat - 1 := by omega
    simp only [rowOf]
    rw [if_pos hcond, hlen, if_pos (by omega :
      0 < rev.end_idx.toNat - rev.start_idx.toNat), hhead, hlast, htn]
    by_cases h3 : 3 ≤ times.getD (rev.end_idx.toNat - 1) 0 -
        times.getD rev.start_idx.toNat 0
    · rw [if_pos h3]
      exact iff_of_true rfl h3
    · rw [if_neg h3]
      exact iff_of_false (by simp) h3
  · intro heq
    by_cases hsN : rev.start_idx < (times.length : ℤ)
    · have hcond : 0 ≤ rev.start_idx ∧ rev.start_idx < (times.length : ℤ) ∧
          0 ≤ rev.end_idx ∧ rev.end_idx ≤ (times.length : ℤ) :=
        ⟨h0, hsN, by omega, hN⟩
      simp only [rowOf]
      rw [if_pos hcond,
        show rev.end_idx.toNat - rev.start_idx.toNat = 0 by omega]
      simp
    · simp only [rowOf]
      rw [if_neg]
      intro hc
      exact hsN hc.2.1

theorem speeds_length (xpos ypos eti : List ℚ) :
    (speeds xpos ypos eti).length = xpos.length - 1 := by
  simp [speeds]

theorem speeds_getD (xpos ypos eti : List ℚ) (i : ℕ)
    (hi : i < xpos.length - 1) :
    (speeds xpos ypos eti).getD i 0 = stepSpeed xpos ypos eti i := by
  simp [speeds, List.getD_eq_getElem?_getD, List.getElem?_map,
    List.getElem?_range, hi]

theorem stepSpeed_nonneg (xpos ypos eti : List ℚ) (i : ℕ) :
    0 ≤ stepSpeed xpos ypos eti i := by
  simp only [stepSpeed]
  set dt : ℚ := if i + 1 < eti.length then eti.getD (i + 1) 0 - eti.getD i 0
    else 1 with hdt
  by_cases h : 0 < dt
  · rw [if_pos h]
    have h' : (0 : ℝ) < (dt : ℝ) := by exact_mod_cast h
    exact mul_nonneg (div_nonneg (Real.sqrt_nonneg _) h'.le) (by norm_num)
  · rw [if_neg h]

theorem speeds_nonneg (xpos ypos eti : List ℚ) :
    ∀ v ∈ speeds xpos ypos eti, 0 ≤ v := by
  intro v hv
  simp only [speeds, List.mem_map] at hv
  obtain ⟨i, _, rfl⟩ := hv
  exact stepSpeed_nonneg xpos ypos eti i

theorem le_foldl_max (l : List ℝ) (a : ℝ) : a ≤ l.foldl max a := by
  induction l generalizing a with
  | nil => exact le_refl a
  | cons b t ih => exact le_trans (le_max_left a b) (ih (max a b))

theorem mem_le_foldl_max : ∀ (l : List ℝ) (a b : ℝ), b ∈ l → b ≤ l.foldl max a
  | c :: t, a, b, hb => by
    rcases List.mem_cons.mp hb with h | h
    · subst h
      exact le_trans (le_max_right a b) (le_foldl_max t (max a b))
    · exact mem_le_foldl_max t (max a c) b h

theorem foldl_min_le (l : List ℝ) (a : ℝ) : l.foldl min a ≤ a := by
  induction l generalizing a with
  | nil => exact le_refl a
  | cons b t ih => exact le_trans (ih (min a b)) (min_le_left a b)

theorem mem_le_speed_max (s : List ℝ) (v : ℝ) (hv : v ∈ s) :
    v ≤ speed_max s := by
  match s, hv with
  | a :: t, hv =>
    rcases List.mem_cons.mp hv with h | h
    · subst h
      exact le_foldl_max t v
    · exact mem_le_foldl_max t a v h

theorem speed_min_le_speed_max (s : List ℝ) (hnn : ∀ v ∈ s, 0 ≤ v) :
    speed_min s ≤ speed_max s := by
  rcases hfs : s.filter (fun v => decide (0 < v)) with _ | ⟨p, ps⟩
  · have hmin : speed_min s = 0 := by
      rw [speed_min, hfs]
      rfl
    rw [hmin]
    match s with
    | [] => norm_num [speed_max, listMaxD]
    | a :: t =>
      have ha : (0 : ℝ) ≤ a := hnn a (List.mem_cons_self a t)
      exact le_trans ha (le_foldl_max t a)
  · have hpmem : p ∈ s.filter (fun v => decide (0 < v)) := by
      rw [hfs]
      exact List.mem_cons_self p ps
    have hp : p ∈ s := (List.mem_filter.mp hpmem).1
    have h1 : speed_min s ≤ p := by
      rw [speed_min, hfs]
      exact foldl_min_le ps p
    exact le_trans h1 (mem_le_speed_max s p hp)

theorem speed_denom_pos (s : List ℝ) (hnn : ∀ v ∈ s, 0 ≤ v) :
    0 < speed_max s - speed_min s + 1e-10 := by
  have hle := speed_min_le_speed_max s hnn
  have heps : (0 : ℝ) < 1e-10 := by norm_num
  linarith

/-- Claim C2: for a track whose position series both have length `M`, the
derived speed sequence has exactly `M - 1` values, each non-negative; the
value at index `i` is `sqrt(dx^2+dy^2)/dt*10` when `dt > 0` and `0`
otherwise, with `dt = eti[i+1]-eti[i]` if `i+1 < len(eti)` else `1`. -/
theorem speeds_spec (xpos ypos eti : List ℚ)
    (_hxy : ypos.length = xpos.length) :
    (speeds xpos ypos eti).length = xpos.length - 1 ∧
    (∀ v ∈ speeds xpos ypos eti, 0 ≤ v) ∧
    (∀ i, i < xpos.length - 1 →
      (speeds xpos ypos eti).getD i 0 =
        (if 0 < (if i + 1 < eti.length then eti.getD (i + 1) 0 - eti.getD i 0
            else 1 : ℚ) then
          Real.sqrt (((xpos.getD (i + 1) 0 - xpos.getD i 0) ^ 2 +
              (ypos.getD (i + 1) 0 - ypos.getD i 0) ^ 2 : ℚ) : ℝ) /
            ((if i + 1 < eti.length then eti.getD (i + 1) 0 - eti.getD i 0
              else 1 : ℚ) : ℝ) * 10
        else 0)) := by
  refine ⟨speeds_length xpos ypos eti, speeds_nonneg xpos ypos eti, ?_⟩
  intro i hi
  rw [speeds_getD xpos ypos eti i hi]
  rfl

/-- Witness for C2: on the concrete track `x = [0,3]`, `y = [0,4]`,
`eti = [0,1]` (position-series length 2), the derived speed sequence has
exactly one value. -/
theorem speeds_spec_witness :
    ([0, 4] : List ℚ).length = ([0, 3] : List ℚ).length ∧
    (speeds [0, 3] [0, 4] [0, 1]).length = 1 :=
  ⟨rfl, (speeds_spec [0, 3] [0, 4] [0, 1] rfl).1⟩

/-- Claim C3: for any derived speed sequence, the normalization denominator
`speed_max - speed_min + 1e-10` is strictly positive (so the normalization
never divides by zero, even when all speeds are equal), and each segment's
normalized value is `(speed[i] - speed_min)/(speed_max - speed_min + 1e-10)`
with `speed_min` the minimum over strictly-positive speeds (0 if none) and
`speed_max` the maximum speed (1 if the sequence is empty). -/
theorem speed_norm_spec (xpos ypos eti : List ℚ) :
    0 < speed_max (speeds xpos ypos eti) - speed_min (speeds xpos ypos eti)
      + 1e-10 ∧
    ∀ i, speed_norm (speeds xpos ypos eti) i =
      ((speeds xpos ypos eti).getD i 0 - speed_min (speeds xpos ypos eti)) /
        (speed_max (speeds xpos ypos eti) - speed_min (speeds xpos ypos eti)
          + 1e-10) :=
  ⟨speed_denom_pos _ (speeds_nonneg xpos ypos eti), fun _ => rfl⟩

/-- Counterexample to C4 as stated: on the track `x = [0,1]`, `y = [0,0]`,
`eti = [0,0]`, position segment 0 lies in `[0, M-2]` (first conjunct), yet
its `dt` is 0, so its derived speed is 0 and `plot_trajectory` draws no
segment at all (second conjunct) — not every position segment is drawn. -/
theorem trajectory_draws_all_cx :
    0 < ([0, 1] : List ℚ).length - 1 ∧
    drawnSegments [0, 1] [0, 0] [0, 0] [] = [] := by
  constructor
  · decide
  · have h0 : stepSpeed [0, 1] [0, 0] [0, 0] 0 = 0 := by
      simp only [stepSpeed]
      norm_num
    simp [drawnSegments, speeds, List.range_succ, h0]

/-- Claim C4 amended: `plot_trajectory` draws every position segment
`i ∈ [0, M-2]` whose derived speed is strictly positive — in the single
fixed reversal color iff some reversal window (qualified or not) satisfies
`start_idx ≤ i < end_idx`, regardless of speed, and otherwise in the
gradient color of its normalized speed; a segment whose derived speed is
not strictly positive (zero displacement or non-positive `dt`) is not
drawn at all. -/
theorem trajectory_segment_coloring (xpos ypos eti : List ℚ)
    (revs : List ReversalWindow) (i : ℕ) (hi : i < xpos.length - 1) :
    (inReversal revs i = true ↔
      ∃ rev ∈ revs, rev.start_idx ≤ (i : ℤ) ∧ (i : ℤ) < rev.end_idx) ∧
    (0 < (speeds xpos ypos eti).getD i 0 →
      (i, if inReversal revs i = true then SegColor.reversal
        else SegColor.gradient (speed_norm (speeds xpos ypos eti) i))
        ∈ drawnSegments xpos ypos eti revs) ∧
    (¬ 0 < (speeds xpos ypos eti).getD i 0 →
      ∀ c, (i, c) ∉ drawnSegments xpos ypos eti revs) := by
  refine ⟨?_, ?_, ?_⟩
  · simp [inReversal, List.any_eq_true]
  · intro hpos
    rw [drawnSegments, List.mem_filterMap]
    refine ⟨i, List.mem_range.mpr hi, ?_⟩
    rw [if_pos]
    exact ⟨by rw [speeds_length]; exact hi, hpos⟩
  · intro hnpos c hc
    rw [drawnSegments, List.mem_filterMap] at hc
    obtain ⟨j, _, hj⟩ := hc
    by_cases hguard : j < (speeds xpos ypos eti).length ∧
        0 < (speeds xpos ypos eti).getD j 0
    · rw [if_pos hguard] at hj
      have hji : j = i := congrArg Prod.fst (Option.some.inj hj)
      exact hnpos (hji ▸ hguard.2)
    · rw [if_neg hguard] at hj
      exact Option.noConfusion hj

/-- Witness for amended C4: on the track `x = [0,3]`, `y = [0,4]`,
`eti = [0,1]` with one reversal window `[0,1)`, segment 0 has positive
speed and is contained in the window, so it is drawn in the fixed reversal
color. -/
theorem trajectory_segment_coloring_witness :
    (0, SegColor.reversal) ∈ drawnSegments [0, 3] [0, 4] [0, 1] [⟨0, 1⟩] := by
  have hpos : 0 < (speeds [0, 3] [0, 4] [0, 1]).getD 0 0 := by
    rw [speeds_getD [0, 3] [0, 4] [0, 1] 0 (by norm_num)]
    simp only [stepSpeed]
    norm_num
  have h := (trajectory_segment_coloring [0, 3] [0, 4] [0, 1] [⟨0, 1⟩] 0
    (by norm_num)).2.1 hpos
  rwa [if_pos (by decide : inReversal [⟨0, 1⟩] 0 = true)] at h

/-- Witness for C1: over `elapsed_time = [0, 2.999, 3]`, the window
`[0, 2)` (span 2.999 s) is excluded from the event table, the window
`[0, 3)` (span exactly 3.000 s) is included, and the degenerate window
`[1, 1)` never appears. -/
theorem reversal_table_threshold_witness :
    (rowOf [0, 2999/1000, 3] ⟨0, 2⟩).isSome = false ∧
    (rowOf [0, 2999/1000, 3] ⟨0, 3⟩).isSome = true ∧
    rowOf [0, 2999/1000, 3] ⟨1, 1⟩ = none := by
  refine ⟨?_, ?_, ?_⟩
  · have h := (reversal_table_threshold [0, 2999/1000, 3] ⟨0, 2⟩
      (by decide) (by decide)).1 (by decide)
    rw [Bool.eq_false_iff]
    intro hs
    have h3 := h.mp hs
    norm_num [show Int.toNat 1 = 1 from rfl,
      show Int.toNat 0 = 0 from rfl] at h3
  · have h := (reversal_table_threshold [0, 2999/1000, 3] ⟨0, 3⟩
      (by decide) (by decide)).1 (by decide)
    refine h.mpr ?_
    norm_num [show Int.toNat 2 = 2 from rfl,
      show Int.toNat 0 = 0 from rfl]
  · exact (reversal_table_threshold [0, 2999/1000, 3] ⟨1, 1⟩
      (by decide) (by decide)).2 rfl

theorem length_filterMap_of_forall_isSome {α β : Type} (l : List α)
    (f : α → Option β) (h : ∀ a ∈ l, (f a).isSome = true) :
    (l.filterMap f).length = l.length := by
  induction l with
  | nil => rfl
  | cons a t ih =>
    rw [List.filterMap_cons]
    rcases hfa : f a with _ | b
    · exact absurd (h a (List.mem_cons_self a t)) (by rw [hfa]; simp)
    · simp only [List.length_cons]
      rw [ih fun x hx => h x (List.mem_cons_of_mem a hx)]

/-- Counterexample to C5 as stated: a track whose directory exists but
whose `track_data.h5` is absent yields status `error` (carrying the
`FileNotFoundError` message), not `not_found` as the claim requires. -/
theorem missing_h5_not_found_cx :
    process_single_track 1 envH5Missing =
      ⟨1, Status.error, 0, some "No track_data.h5 found"⟩ ∧
    (process_single_track 1 envH5Missing).status ≠ Status.not_found :=
  ⟨rfl, by decide⟩

/-- Claim C5 amended: a missing track directory yields `not_found` with
`reversal_count = 0` and no exception (the unit is total), and the outcome
is then independent of the loader and renderer — the loader is not
invoked; a directory whose `track_data.h5` is absent yields `error`
carrying the `FileNotFoundError` message (not `not_found` as originally
claimed); an exception raised inside the unit — in the reader or in the
renderer — yields `error` carrying the exception's message, with
`reversal_count = 0`. -/
theorem process_track_outcomes (n : ℕ) (env : TrackEnv) :
    (env.dirExists = false →
      process_single_track n env = ⟨n, Status.not_found, 0, none⟩ ∧
      ∀ env2 : TrackEnv, env2.dirExists = false →
        process_single_track n env2 = process_single_track n env) ∧
    (env.dirExists = true → env.h5Exists = false →
      process_single_track n env =
        ⟨n, Status.error, 0, some "No track_data.h5 found"⟩) ∧
    (env.dirExists = true → ∀ msg, load_track_data env = Except.error msg →
      process_single_track n env = ⟨n, Status.error, 0, some msg⟩) ∧
    (env.dirExists = true → ∀ d, load_track_data env = Except.ok d →
      ∀ msg, env.renderResult = Except.error msg →
      process_single_track n env = ⟨n, Status.error, 0, some msg⟩) := by
  refine ⟨?_, ?_, ?_, ?_⟩
  · intro hdir
    constructor
    · rw [process_single_track, if_pos hdir]
    · intro env2 hdir2
      rw [process_single_track, if_pos hdir2,
        process_single_track, if_pos hdir]
  · intro hdir hh5
    simp [process_single_track, hdir, load_track_data, hh5]
  · intro hdir msg hload
    simp [process_single_track, hdir, hload]
  · intro hdir d hload msg hrender
    simp [process_single_track, hdir, hload, hrender]

/-- Witness for amended C5: a missing directory yields `not_found` with
count 0; an existing directory without `track_data.h5` yields `error` with
the `FileNotFoundError` message. -/
theorem process_track_outcomes_witness :
    process_single_track 7 envDirMissing =
      ⟨7, Status.not_found, 0, none⟩ ∧
    process_single_track 7 envH5Missing =
      ⟨7, Status.error, 0, some "No track_data.h5 found"⟩ :=
  ⟨((process_track_outcomes 7 envDirMissing).1 rfl).1,
    (process_track_outcomes 7 envH5Missing).2.1 rfl rfl⟩

/-- Claim C6: for every track record with `k` reversal windows and every
reversal index `≥ k`, the close-up renderer is a silent no-op: it writes
no image artifact and raises no error. -/
theorem closeup_out_of_range (d : TrackData) (idx : ℤ)
    (h : (d.reversals.length : ℤ) ≤ idx) :
    plot_reversal_closeup d idx = Except.ok none := by
  rw [plot_reversal_closeup, if_pos h]

/-- Witness for C6: a track with no reversals, index 0. -/
theorem closeup_out_of_range_witness :
    plot_reversal_closeup emptyTrack 0 = Except.ok none :=
  closeup_out_of_range emptyTrack 0 (by decide)

/-- Claim C10: the close-up guard `len(reversals) <= reversal_idx` is
one-sided: with `k > 0` reversals and a negative index `idx`, the call is
not a no-op — for `-k ≤ idx < 0` Python indexing wraps and the close-up of
reversal `k + idx` is rendered (an artifact is written), and for
`idx < -k` the list indexing raises `IndexError`. -/
theorem closeup_negative_index (d : TrackData) (idx : ℤ)
    (hk : 0 < d.reversals.length) (hneg : idx < 0) :
    (-(d.reversals.length : ℤ) ≤ idx →
      plot_reversal_closeup d idx = Except.ok
        (some (closeupArtifactAt d (idx + d.reversals.length).toNat))) ∧
    (idx < -(d.reversals.length : ℤ) →
      plot_reversal_closeup d idx =
        Except.error "list index out of range") := by
  have hguard : ¬ (d.reversals.length : ℤ) ≤ idx := by omega
  constructor
  · intro hge
    simp only [plot_reversal_closeup]
    rw [if_neg hguard, if_pos hneg, if_pos]
    exact ⟨by omega, by omega⟩
  · intro hlt
    simp only [plot_reversal_closeup]
    rw [if_neg hguard, if_pos hneg, if_neg]
    intro hcontra
    omega

/-- Witness for C10: on a track with one reversal, index `-1` renders the
close-up of reversal 0 and index `-2` raises `IndexError`. -/
theorem closeup_negative_index_witness :
    plot_reversal_closeup oneRevTrack (-1) =
      Except.ok (some (closeupArtifactAt oneRevTrack 0)) ∧
    plot_reversal_closeup oneRevTrack (-2) =
      Except.error "list index out of range" :=
  ⟨(closeup_negative_index oneRevTrack (-1) (by decide) (by decide)).1
      (by decide),
    (closeup_negative_index oneRevTrack (-2) (by decide) (by decide)).2
      (by decide)⟩

/-- Counterexample to C7 as stated: with an empty resolved track set the
orchestrator returns early ("No tracks to process.") and the summary
artifact is never written, rather than written exactly once. -/
theorem empty_run_summary_cx :
    (generate_all_figures [] []).summaryWrites = [] := rfl

/-- Claim C7 amended: for a NON-empty resolved track set and any pool
completion order (a permutation of the submission indices), the run-level
summary artifact is written exactly once, after all dispatched units have
completed: the single write holds the full outcome sequence — one outcome
per dispatched unit — plus its `total_reversals`, at the fixed
`summary.json` path (mode `w`, overwriting any prior artifact); for an
empty resolved track set no summary is written at all. -/
theorem summary_written_once (tracks : List (ℕ × TrackEnv)) (order : List ℕ)
    (hne : tracks ≠ []) (hord : order.Perm (List.range tracks.length)) :
    (generate_all_figures tracks order).summaryWrites =
      [⟨(generate_all_figures tracks order).outcomes,
        total_reversals (generate_all_figures tracks order).outcomes⟩] ∧
    (generate_all_figures tracks order).outcomes.length = tracks.length := by
  have hni : tracks.isEmpty = false := by
    cases tracks
    · exact absurd rfl hne
    · rfl
  constructor
  · simp [generate_all_figures, hni]
  · have hsome : ∀ i ∈ order,
        ((tracks.get? i).map collectOutcome).isSome = true := by
      intro i hi
      have hilt : i < tracks.length := List.mem_range.mp (hord.mem_iff.mp hi)
      rw [List.get?_eq_get hilt]
      rfl
    simp only [generate_all_figures, hni, Bool.false_eq_true, if_false]
    rw [length_filterMap_of_forall_isSome order _ hsome, hord.length_eq,
      List.length_range]

/-- Witness for amended C7: a one-track run writes the summary exactly
once, containing the single outcome. -/
theorem summary_written_once_witness :
    (generate_all_figures [(1, envOk)] [0]).summaryWrites =
      [⟨(generate_all_figures [(1, envOk)] [0]).outcomes,
        total_reversals (generate_all_figures [(1, envOk)] [0]).outcomes⟩] ∧
    (generate_all_figures [(1, envOk)] [0]).outcomes.length = 1 :=
  summary_written_once [(1, envOk)] [0] (List.cons_ne_nil _ _) (by decide)

/-- Counterexample to C8 as stated: a successfully processed track with one
loaded reversal window of elapsed span 1 s (below the 3-second threshold)
reports `reversal_count = 1` — counting ALL loaded windows — although its
number of qualified reversals is 0. -/
theorem reversal_count_qualified_cx :
    process_single_track 1 envOk = ⟨1, Status.success, 1, none⟩ ∧
    qualified_count oneRevTrack.times oneRevTrack.reversals = 0 := by
  constructor
  · rfl
  · norm_num [qualified_count, reversal_table_data, rowOf, oneRevTrack,
      show Int.toNat 2 = 2 from rfl]

/-- Claim C8 amended: for every successfully processed track, the reported
`reversal_count` equals the number of ALL reversal windows loaded for the
track (`len(data['reversals'])`), not only those meeting the 3-second
qualification threshold; `total_reversals` sums these counts. -/
theorem reversal_count_all_loaded (n : ℕ) (env : TrackEnv) (d : TrackData)
    (hdir : env.dirExists = true)
    (hload : load_track_data env = Except.ok d)
    (hrender : env.renderResult = Except.ok ()) :
    process_single_track n env =
      ⟨n, Status.success, d.reversals.length, none⟩ := by
  simp [process_single_track, hdir, hload, hrender]

/-- Witness for amended C8: the track with one sub-threshold reversal
reports `reversal_count = 1`. -/
theorem reversal_count_all_loaded_witness :
    process_single_track 3 envOk = ⟨3, Status.success, 1, none⟩ :=
  reversal_count_all_loaded 3 envOk oneRevTrack rfl rfl rfl

/-- Claim C9: the aggregates are functions of the outcome multiset only:
for any two permuted outcome sequences, `total_reversals` (the sum of
`reversal_count` over all outcomes, any status) and `success_count` (the
number of `success` outcomes) coincide, so reordering the discovered track
identifiers or the pool completion order never changes the totals. -/
theorem aggregate_order_invariance (rs rs2 : List Outcome)
    (h : rs.Perm rs2) :
    total_reversals rs = total_reversals rs2 ∧
    success_count rs = success_count rs2 :=
  ⟨(h.map Outcome.reversals).sum_eq, (h.filter _).length_eq⟩

/-- Witness for C9: two concrete outcomes, swapped. -/
theorem aggregate_order_invariance_witness :
    total_reversals [⟨1, Status.success, 2, none⟩,
        ⟨2, Status.error, 0, some "x"⟩] =
      total_reversals [⟨2, Status.error, 0, some "x"⟩,
        ⟨1, Status.success, 2, none⟩] ∧
    success_count [⟨1, Status.success, 2, none⟩,
        ⟨2, Status.error, 0, some "x"⟩] =
      success_count [⟨2, Status.error, 0, some "x"⟩,
        ⟨1, Status.success, 2, none⟩] :=
  aggregate_order_invariance _ _
    (List.Perm.swap (⟨2, Status.error, 0, some "x"⟩ : Outcome)
      (⟨1, Status.success, 2, none⟩ : Outcome) [])

end FigureGen
